import Mathlib

/-!
Verification of the AWH dashboard telemetry pipeline (`data_play.py`,
`data_play-01.py`, `ui_display.py`) against its natural-language
specification.  The pipeline is embedded shallowly over `ℚ`: pandas cells
are `Option ℚ` (`none` models NaN/None), per-row series are lists or
functions of the positional index, and Python's `round(x, k)` is modelled
as exact half-even rounding on the decimal grid.  The transcendental
`math.exp` is kept abstract: definitions that need it take a function
parameter `mexp : ℚ → ℚ` together with an overflow bound `ovf` (math.exp
raises OverflowError above roughly 709.78); no claim below depends on the
value of `exp` on the non-error path.
-/

/-- A pandas cell: `none` models a missing value (NaN or None). -/
abbrev Cell : Type := Option ℚ

/-- Round a rational to the nearest integer, ties to the even integer
(the rounding used by Python's builtin `round`). -/
def rhe (x : ℚ) : ℤ :=
  if x - ⌊x⌋ < 1/2 then ⌊x⌋
  else if 1/2 < x - ⌊x⌋ then ⌊x⌋ + 1
  else if Even ⌊x⌋ then ⌊x⌋ else ⌊x⌋ + 1

/-- Python `round(x, k)`: half-even rounding on the `10 ^ k` decimal grid. -/
def roundTo (k : ℕ) (x : ℚ) : ℚ := (rhe (x * (10 : ℚ) ^ k) : ℚ) / (10 : ℚ) ^ k

/-- Median of a list of rationals, as pandas computes it: the middle
element of the sorted list, or the mean of the two middle elements when
the length is even; `none` on the empty list. -/
def medianQ (l : List ℚ) : Option ℚ :=
  if l = [] then none
  else
    let s := List.insertionSort (· ≤ ·) l
    some (if l.length % 2 = 1 then s.getD (l.length / 2) 0
          else (s.getD (l.length / 2 - 1) 0 + s.getD (l.length / 2) 0) / 2)

/-- `_safe_median` of `data_play.py`: the median, or `fallback` when the
series is empty (over `ℚ` the NaN/inf guard of the source never fires). -/
def safeMedian (l : List ℚ) (fallback : ℚ) : ℚ := (medianQ l).getD fallback

/-- Consecutive differences of a list (`Series.diff` without its leading
NaN entry): `pairDiffs [a, b, c] = [b - a, c - b]`. -/
def pairDiffs : List ℚ → List ℚ
  | [] => []
  | [_] => []
  | a :: b :: t => (b - a) :: pairDiffs (b :: t)

/-- A Python value handed to `calculate_absolute_humidity`: a finite
float, the float NaN, a string, or None. -/
inductive PyVal where
  | num (q : ℚ)
  | nan
  | pstr
  | pnone
deriving DecidableEq

/-- Result of `calculate_absolute_humidity`: a finite float, the float
NaN (propagated through the arithmetic), or the None returned by the
`except` handler. -/
inductive PyRes where
  | val (q : ℚ)
  | rnan
  | rnone
deriving DecidableEq

/-- A result that carries no numeric value (NaN or None). -/
def PyRes.isInvalid : PyRes → Bool
  | .val _ => false
  | .rnan => true
  | .rnone => true

/-- `calculate_absolute_humidity(temp_c, rel_humidity)` of `data_play.py`
(the same function appears in `data_play-01.py` and `ui_display.py`):
`6.112 * exp(17.67*T/(T+243.5)) * rh * 2.1674 / (273.15 + T)` rounded to
2 decimals, with the `try/except` returning None on TypeError (string or
None operand), ZeroDivisionError (`T = -243.5` in the exponent,
`T = -273.15` in the denominator) and OverflowError (exponent argument
above `ovf`); the float NaN propagates through `exp` and the arithmetic
without raising, so a NaN operand yields a NaN result. -/
def calculate_absolute_humidity (mexp : ℚ → ℚ) (ovf : ℚ)
    (temp rel : PyVal) : PyRes :=
  match temp with
  | .pnone => .rnone
  | .pstr => .rnone
  | .nan =>
    match rel with
    | .num _ => .rnan
    | .nan => .rnan
    | _ => .rnone
  | .num t =>
    if t + 243.5 = 0 then .rnone
    else
      let a := 17.67 * t / (t + 243.5)
      if ovf < a then .rnone
      else
        match rel with
        | .pnone => .rnone
        | .pstr => .rnone
        | .nan => .rnan
        | .num r =>
          if (273.15 : ℚ) + t = 0 then .rnone
          else .val (roundTo 2 (6.112 * mexp a * r * 2.1674 / (273.15 + t)))

/-- `calculate_water_production`'s loop state: running `total`, previous
valid reading `prev`, remaining readings. -/
def wpGo (total : ℚ) (prev : Option ℚ) : List Cell → List Cell
  | [] => []
  | none :: ws => none :: wpGo total prev ws
  | some w :: ws =>
    let t := match prev with
      | none => w
      | some p => if p ≤ w then total + (w - p) else total
    some (t / 1000) :: wpGo t (some w) ws

/-- `calculate_water_production(weight_series)` of `data_play.py`:
accumulate grams into liters, ignoring drops of the balance reading
(resets) and passing missing readings through as missing. -/
def calculate_water_production (ws : List Cell) : List Cell := wpGo 0 none ws

namespace DataPlay

/-- Timestamp stage of `data_play.py`'s `process_data` (lines 114-121):
coerce timestamps (`none` models an unparsable entry), drop the failures,
sort ascending, take consecutive differences in seconds, fill the first
row's undefined difference with the median of the remaining differences
(fallback 30 when there are none), and replace negative differences by
that median. -/
def sampleIntervals (ts : List Cell) : List ℚ :=
  let v := List.insertionSort (· ≤ ·) (ts.filterMap id)
  let ds := pairDiffs v
  let med := safeMedian ds 30
  match v with
  | [] => []
  | _ :: _ => med :: ds.map (fun d => if d < 0 then med else d)

/-- Energy stage of `data_play.py`'s `process_data` (lines 183-192): one
median timestamp gap (fallback 0) is converted to hours and multiplied
into every row's instantaneous power; a missing power cell propagates as
a missing energy cell.  `ts` is the already parsed, sorted timestamp
column; `power` is the power column aligned with it. -/
def energyStepFromPower (ts : List ℚ) (power : List Cell) : List Cell :=
  let freq := safeMedian (pairDiffs ts) 0
  power.map (fun c => c.map (fun p => p * (freq / 3600) / 1000))

/-- `_apply_pause_mask(values, counting)` of `data_play.py`: zero the
step value wherever the counting flag is false, treating a missing flag
as true; no counting column means no masking. -/
def applyPauseMask (vs : List ℚ) (counting : Option (List (Option Bool))) : List ℚ :=
  match counting with
  | none => vs
  | some c => vs.mapIdx (fun i v => if (c.getD i none).getD true then v else 0)

/-- `_block_ids_from_resets` of `data_play.py` read at one position: the
block id of row `i` is the number of rows `j ≤ i` whose reset flag is
true (missing flags count as false), i.e. the inclusive cumulative sum of
the reset indicator. -/
def blockIdAt (resets : List (Option Bool)) (i : ℕ) : ℕ :=
  (resets.take (i + 1)).countP (fun c => c = some true)

/-- Block-scoped cumulative sum of `data_play.py`'s `process_data`
(lines 224-226, before the display rounding): the value at row `i` is the
sum of the step values of the rows up to and including `i` that share
row `i`'s block id. -/
def blockCumsumAt (resets : List (Option Bool)) (vs : List ℚ) (i : ℕ) : ℚ :=
  ∑ j ∈ Finset.range (i + 1),
    if blockIdAt resets j = blockIdAt resets i then vs.getD j 0 else 0

/-- `_freeze_after_flag(series, freeze)` of `data_play.py` (the same
helper appears in `ui_display.py`): if the flag is ever true, find its
first true position `p`, take the value just before `p` (the value at
`p` itself when `p` is the first row) and overwrite every position from
`p` on with it; otherwise return the series unchanged. -/
def freezeAfterFlag (s : List ℚ) (fz : List (Option Bool)) : List ℚ :=
  let f : List Bool := fz.map (fun c => c.getD false)
  if f.any id then
    let p := f.findIdx id
    let lastVal := if 0 < p then s.getD (p - 1) 0 else s.getD p 0
    s.take p ++ List.replicate (s.length - p) lastVal
  else s

/-- Calibration row test of `data_play.py`'s `process_data` (line 155):
positional index below 10, or current below 2.  `df.get("current", 0)`
returns the scalar 0 when the column is absent, so every row qualifies
in that case; a missing current cell compares false. -/
def calibCond (current : Option (List Cell)) (i : ℕ) : Bool :=
  decide (i < 10) ||
    (match current with
     | none => true
     | some c =>
       match c.getD i none with
       | some v => decide (v < 2)
       | none => false)

/-- Indices of the calibration rows among `n` rows. -/
def calibRows (n : ℕ) (current : Option (List Cell)) : List ℕ :=
  (List.range n).filter (calibCond current)

/-- The differences intake minus outtake absolute humidity over the given
rows, keeping only the rows where both cells are present (the pandas
subtraction is NaN when either operand is, and `mean` skips NaN). -/
def calibDiffs (absIn absOut : List Cell) (rows : List ℕ) : List ℚ :=
  rows.filterMap (fun i =>
    match absIn.getD i none, absOut.getD i none with
    | some a, some b => some (a - b)
    | _, _ => none)

/-- Calibration offset of `data_play.py`'s `process_data` (lines 154-162):
the mean of intake minus outtake absolute humidity over the calibration
rows; the scalar 0 when no row satisfies the condition; NaN (`none`) when
rows qualify but every difference is missing. -/
def calibOffset (n : ℕ) (absIn absOut : List Cell) (current : Option (List Cell)) : Cell :=
  if calibRows n current = [] then some 0
  else
    let vs := calibDiffs absIn absOut (calibRows n current)
    if vs = [] then none else some (vs.sum / vs.length)

/-- Cell addition with NaN propagation (pandas `Series + scalar`). -/
def cellAdd (a b : Cell) : Cell :=
  match a, b with
  | some x, some y => some (x + y)
  | _, _ => none

/-- The `calibrated_outtake_air_humidity` column of `data_play.py`'s
`process_data` (line 163): outtake absolute humidity plus the calibration
offset, rowwise over `n` rows. -/
def calibratedOuttake (n : ℕ) (absIn absOut : List Cell) (current : Option (List Cell)) : List Cell :=
  (List.range n).map (fun i => cellAdd (absOut.getD i none) (calibOffset n absIn absOut current))

end DataPlay

namespace DataPlay01

/-- One input record for `data_play-01.py`'s `process_data`, holding the
raw field values of a row (canonical names; the rename stage of the
source only relabels columns).  `absIn` is an `absolute_intake_air_humidity`
column supplied directly by the caller, used by the intake stage when the
temperature/humidity pair is absent. -/
structure Row where
  timestamp : Cell := none
  velocity : Cell := none
  temperature : Cell := none
  humidity : Cell := none
  outTemperature : Cell := none
  outHumidity : Cell := none
  absIn : Cell := none
  weight : Cell := none
  power : Cell := none
  pump : Option Bool := none
deriving Inhabited

/-- An input table for `data_play-01.py`'s `process_data`: the rows plus
one presence flag per optional column (stations have heterogeneous
sensor loadouts, and each stage tests column presence). -/
structure Frame where
  rows : List Row
  hasTimestamp : Bool := false
  hasVelocity : Bool := false
  hasTemperature : Bool := false
  hasHumidity : Bool := false
  hasOutTemperature : Bool := false
  hasOutHumidity : Bool := false
  hasAbsIn : Bool := false
  hasWeight : Bool := false
  hasPower : Bool := false
  hasPump : Bool := false

/-- Configuration of `data_play-01.py`'s `process_data`, plus the two
parameters of the abstract `math.exp` model. -/
structure Cfg where
  mexp : ℚ → ℚ
  ovf : ℚ
  area : ℚ := 1
  lag : ℕ := 10
  minIntake : ℚ := 2/100
  minProd : ℚ := 5/1000
  effMax : ℚ := 120
  powerThr : Option ℚ := none

/-- Sort key of the timestamp stage (rows are sorted after dropping the
unparsable timestamps, so the key is always present where it is used). -/
def key (r : Row) : ℚ := r.timestamp.getD 0

/-- Rows after the timestamp stage: drop rows whose timestamp failed to
parse and sort by timestamp; without a timestamp column the row order is
untouched. -/
def rowsOf (f : Frame) : List Row :=
  if f.hasTimestamp then
    List.insertionSort (fun a b => key a ≤ key b) (f.rows.filter (fun r => r.timestamp.isSome))
  else f.rows

/-- Number of processed rows. -/
def nOf (f : Frame) : ℕ := (rowsOf f).length

/-- The processed row at positional index `i`. -/
def rowAt (f : Frame) (i : ℕ) : Row := (rowsOf f).getD i default

/-- Timestamp value at positional index `i` (in seconds). -/
def tsAt (f : Frame) (i : ℕ) : ℚ := (rowAt f i).timestamp.getD 0

/-- `df["timestamp"].diff().dt.total_seconds()` at row `i`: undefined on
the first row. -/
def dtAt (f : Frame) (i : ℕ) : Cell :=
  if i = 0 then none else some (tsAt f i - tsAt f (i - 1))

/-- The robust median gap of `data_play-01.py` (lines 60-61): the median
of the differences after the first when there are at least two rows,
else 30; then forced to 30 when nonpositive. -/
def medOf (f : Frame) : ℚ :=
  let n := nOf f
  let m0 : Option ℚ :=
    if 1 < n then medianQ ((List.range (n - 1)).map (fun j => tsAt f (j + 1) - tsAt f j))
    else some 30
  match m0 with
  | none => 30
  | some m => if m ≤ 0 then 30 else m

/-- `df["sample_interval"]` of `data_play-01.py` (line 62): the
difference, with the first row filled by the median gap, clipped from
below at a third of the median gap. -/
def intervalAt (f : Frame) (i : ℕ) : ℚ :=
  max (medOf f / 3) ((dtAt f i).getD (medOf f))

/-- A cell fed to `calculate_absolute_humidity` through `df.apply`: a
missing cell arrives as the float NaN. -/
def toPyVal (c : Cell) : PyVal :=
  match c with
  | some q => PyVal.num q
  | none => PyVal.nan

/-- Cell-level wrapper of `calculate_absolute_humidity`: NaN and None
results both make the output cell missing. -/
def cellAH (cfg : Cfg) (t h : Cell) : Cell :=
  match calculate_absolute_humidity cfg.mexp cfg.ovf (toPyVal t) (toPyVal h) with
  | .val q => some q
  | _ => none

/-- Whether the processed table carries an `absolute_intake_air_humidity`
column: computed from the temperature/humidity pair, or passed through
from the input. -/
def hasIntakeAH (f : Frame) : Bool :=
  (f.hasTemperature && f.hasHumidity) || f.hasAbsIn

/-- The `absolute_intake_air_humidity` cell at row `i`: the humidity
stage overwrites any input column when the temperature/humidity pair is
present. -/
def absInAt (cfg : Cfg) (f : Frame) (i : ℕ) : Cell :=
  if f.hasTemperature && f.hasHumidity then
    cellAH cfg (rowAt f i).temperature (rowAt f i).humidity
  else (rowAt f i).absIn

/-- The `absolute_outtake_air_humidity` cell at row `i`. -/
def absOutAt (cfg : Cfg) (f : Frame) (i : ℕ) : Cell :=
  if f.hasOutTemperature && f.hasOutHumidity then
    cellAH cfg (rowAt f i).outTemperature (rowAt f i).outHumidity
  else none

/-- `intake_step (L)` of `data_play-01.py` (lines 88-97): absolute
humidity times nonnegative velocity times area times interval over 1000,
with missing operands filled to 0 and the result clipped at 0; the
constant 0 column when any required column is absent. -/
def intakeStepAt (cfg : Cfg) (f : Frame) (i : ℕ) : ℚ :=
  if hasIntakeAH f && f.hasVelocity && f.hasTimestamp then
    match absInAt cfg f i, (rowAt f i).velocity with
    | some a, some v => max 0 (a * max v 0 * cfg.area * intervalAt f i / 1000)
    | _, _ => 0
  else 0

/-- `energy_step (kWh)` of `data_play-01.py` (lines 100-103): power
(missing filled to 0) times the row's own sample interval in hours over
1000; the constant 0 column when power or the interval is absent. -/
def energyStepAt (f : Frame) (i : ℕ) : ℚ :=
  if f.hasPower && f.hasTimestamp then
    ((rowAt f i).power.getD 0) * (intervalAt f i / 3600) / 1000
  else 0

/-- The `water_production` column (lines 106-109): the running balance
total, or an all-NaN column without a weight column. -/
def waterCol (f : Frame) : List Cell :=
  if f.hasWeight then calculate_water_production ((rowsOf f).map (fun r => r.weight))
  else List.replicate (nOf f) none

/-- `water_production` at row `i`. -/
def waterAt (f : Frame) (i : ℕ) : Cell := (waterCol f).getD i none

/-- `accumulated_intake_water` (line 112): plain cumulative sum rounded
to 3 decimals. -/
def accIntakeAt (cfg : Cfg) (f : Frame) (i : ℕ) : ℚ :=
  roundTo 3 (∑ j ∈ Finset.range (i + 1), intakeStepAt cfg f j)

/-- `accumulated_energy (kWh)` (line 113): plain cumulative sum rounded
to 6 decimals. -/
def accEnergyAt (f : Frame) (i : ℕ) : ℚ :=
  roundTo 6 (∑ j ∈ Finset.range (i + 1), energyStepAt f j)

/-- `energy_per_liter (kWh/L)` (lines 116-124): accumulated energy over
water production where the latter is positive, else NaN. -/
def eplAt (f : Frame) (i : ℕ) : Cell :=
  match waterAt f i with
  | some w => if 0 < w then some (roundTo 5 (accEnergyAt f i / w)) else none
  | none => none

/-- `win = max(int(lag_steps), 1)` (line 129). -/
def winOf (cfg : Cfg) : ℕ := max cfg.lag 1

/-- The positional indices inside the trailing rolling window of length
`win` ending at row `i` (always nonempty). -/
def windowIdx (win i : ℕ) : List ℕ := (List.range (i + 1)).drop (i + 1 - win)

/-- `prod_step` (line 132): first difference of `water_production`
clipped at 0; NaN on the first row and wherever an operand is missing. -/
def prodStepAt (f : Frame) (i : ℕ) : Cell :=
  if i = 0 then none
  else
    match waterAt f i, waterAt f (i - 1) with
    | some a, some b => some (max 0 (a - b))
    | _, _ => none

/-- `prod_roll` (line 133): rolling sum of `prod_step` with
`min_periods=1`, which skips missing entries and is missing only when
the whole window is. -/
def prodRollAt (cfg : Cfg) (f : Frame) (i : ℕ) : Cell :=
  let vs := (windowIdx (winOf cfg) i).filterMap (fun j => prodStepAt f j)
  if vs = [] then none else some vs.sum

/-- `intake_roll` (line 136): rolling sum of the never-missing
`intake_step` column. -/
def intakeRollAt (cfg : Cfg) (f : Frame) (i : ℕ) : ℚ :=
  ((windowIdx (winOf cfg) i).map (fun j => intakeStepAt cfg f j)).sum

/-- `df["pump_on"].astype(bool)` at row `i`: a missing flag is truthy. -/
def pumpBoolAt (f : Frame) (i : ℕ) : Bool := ((rowAt f i).pump).getD true

/-- `df["power"].astype(float) > threshold` at row `i`: a missing power
compares false. -/
def powerGtAt (f : Frame) (i : ℕ) (thr : ℚ) : Bool :=
  match (rowAt f i).power with
  | some p => decide (thr < p)
  | none => false

/-- Default pump inference (line 147): water was actually discharged in
the window, `prod_roll > min_prod_L`; a missing rolling production
compares false. -/
def prodGtAt (cfg : Cfg) (f : Frame) (i : ℕ) : Bool :=
  match prodRollAt cfg f i with
  | some p => decide (cfg.minProd < p)
  | none => false

/-- `pump_on_win` (lines 139-147): rolling mean of the pump flag at
least one half when a `pump_on` column exists; else the same test on
power above the configured threshold when that threshold is given and a
power column exists; else water discharge in the window. -/
def pumpOnAt (cfg : Cfg) (f : Frame) (i : ℕ) : Bool :=
  if f.hasPump then
    let w := windowIdx (winOf cfg) i
    decide ((1 : ℚ)/2 ≤ (w.map (fun j => if pumpBoolAt f j then (1 : ℚ) else 0)).sum / (w.length : ℚ))
  else
    match cfg.powerThr with
    | some thr =>
      if f.hasPower then
        let w := windowIdx (winOf cfg) i
        decide ((1 : ℚ)/2 ≤ (w.map (fun j => if powerGtAt f j thr then (1 : ℚ) else 0)).sum / (w.length : ℚ))
      else prodGtAt cfg f i
    | none => prodGtAt cfg f i

/-- `eff_raw = 100 * prod_roll / intake_roll` (lines 150-151).  A zero
denominator yields inf or NaN in numpy; both fail the range mask below
exactly as `none` does, so the division is embedded as `none` there. -/
def effRawAt (cfg : Cfg) (f : Frame) (i : ℕ) : Cell :=
  match prodRollAt cfg f i with
  | none => none
  | some pr =>
    if intakeRollAt cfg f i = 0 then none
    else some (100 * pr / intakeRollAt cfg f i)

/-- `good_den = intake_roll >= min_intake_L` (line 154). -/
def goodDenAt (cfg : Cfg) (f : Frame) (i : ℕ) : Bool :=
  decide (cfg.minIntake ≤ intakeRollAt cfg f i)

/-- `good_num = prod_roll >= min_prod_L` (line 155); missing compares
false. -/
def goodNumAt (cfg : Cfg) (f : Frame) (i : ℕ) : Bool :=
  match prodRollAt cfg f i with
  | some p => decide (cfg.minProd ≤ p)
  | none => false

/-- `in_range = (eff_raw >= 0) & (eff_raw <= eff_max)` (line 156);
missing (or infinite) raw efficiency compares false. -/
def inRangeAt (cfg : Cfg) (f : Frame) (i : ℕ) : Bool :=
  match effRawAt cfg f i with
  | some e => decide (0 ≤ e) && decide (e ≤ cfg.effMax)
  | none => false

/-- `keep = pump_on_win & good_den & good_num & in_range` (line 158). -/
def keepAt (cfg : Cfg) (f : Frame) (i : ℕ) : Bool :=
  pumpOnAt cfg f i && goodDenAt cfg f i && goodNumAt cfg f i && inRangeAt cfg f i

/-- `harvesting_efficiency = eff_raw.where(keep, nan).round(2)`
(lines 160-161). -/
def effAt (cfg : Cfg) (f : Frame) (i : ℕ) : Cell :=
  if keepAt cfg f i then (effRawAt cfg f i).map (roundTo 2) else none

/-- The columns `data_play-01.py`'s `process_data` adds to the table,
read positionally. -/
structure Out where
  n : ℕ
  row : ℕ → Row
  interval : ℕ → ℚ
  absIn : ℕ → Cell
  absOut : ℕ → Cell
  intakeStep : ℕ → ℚ
  energyStep : ℕ → ℚ
  water : ℕ → Cell
  accIntake : ℕ → ℚ
  accEnergy : ℕ → ℚ
  energyPerLiter : ℕ → Cell
  prodRoll : ℕ → Cell
  intakeRoll : ℕ → ℚ
  pumpOn : ℕ → Bool
  effRaw : ℕ → Cell
  keep : ℕ → Bool
  harvestingEfficiency : ℕ → Cell

/-- `process_data` of `data_play-01.py`: the fixed composition of the
stages above over one station's table. -/
def process_data (cfg : Cfg) (f : Frame) : Out where
  n := nOf f
  row := rowAt f
  interval := intervalAt f
  absIn := absInAt cfg f
  absOut := absOutAt cfg f
  intakeStep := intakeStepAt cfg f
  energyStep := energyStepAt f
  water := waterAt f
  accIntake := accIntakeAt cfg f
  accEnergy := accEnergyAt f
  energyPerLiter := eplAt f
  prodRoll := prodRollAt cfg f
  intakeRoll := intakeRollAt cfg f
  pumpOn := pumpOnAt cfg f
  effRaw := effRawAt cfg f
  keep := keepAt cfg f
  harvestingEfficiency := effAt cfg f

end DataPlay01

/-!
Concrete tables and configurations used to evaluate the pipeline at
explicit inputs.
-/

/-- A one-row table with intake data but no weight column: its rolling
production is missing, so its efficiency gate fails. -/
def frameGateFail : DataPlay01.Frame :=
  { rows := [{ timestamp := some 0, velocity := some 1, absIn := some 1 }],
    hasTimestamp := true, hasVelocity := true, hasAbsIn := true }

/-- Configuration used with `frameGateFail`. -/
def cfgGateFail : DataPlay01.Cfg :=
  { mexp := fun _ => 0, ovf := 710, area := 1, lag := 1,
    minIntake := 1/100, minProd := 1/1000, effMax := 120, powerThr := none }

/-- A two-row table whose second row passes the whole efficiency gate
with raw efficiency exactly `eff_max = 1/125`: 100 L of intake over the
window against 8 g of collected water. -/
def frameEdge : DataPlay01.Frame :=
  { rows := [{ timestamp := some 0, velocity := some 0, absIn := some 1, weight := some 0 },
             { timestamp := some 12500, velocity := some 8, absIn := some 1, weight := some 8 }],
    hasTimestamp := true, hasVelocity := true, hasAbsIn := true, hasWeight := true }

/-- Configuration with a ceiling `eff_max = 0.008` that is not a multiple
of the 0.01 reporting grid. -/
def cfgEdge : DataPlay01.Cfg :=
  { mexp := fun _ => 0, ovf := 710, area := 1, lag := 1,
    minIntake := 1/100, minProd := 1/1000, effMax := 1/125, powerThr := none }

/-- A two-row table carrying timestamps ten seconds apart and a power
column whose second cell is missing. -/
def framePower : DataPlay01.Frame :=
  { rows := [{ timestamp := some 0, power := some 1000 },
             { timestamp := some 10, power := none }],
    hasTimestamp := true, hasPower := true }

/-- Configuration used with `framePower`. -/
def cfgPower : DataPlay01.Cfg := { mexp := fun _ => 0, ovf := 710 }

/-!
Helper lemmas.
-/

/-- Half-even rounding never goes below the floor. -/
theorem rhe_ge_floor (x : ℚ) : ⌊x⌋ ≤ rhe x := by
  unfold rhe
  split
  · exact le_refl _
  · split
    · omega
    · split
      · exact le_refl _
      · omega

/-- Half-even rounding of a nonnegative rational is nonnegative. -/
theorem rhe_nonneg {x : ℚ} (hx : 0 ≤ x) : 0 ≤ rhe x :=
  le_trans (Int.floor_nonneg.mpr hx) (rhe_ge_floor x)

/-- Half-even rounding exceeds its argument by at most one half. -/
theorem rhe_le_add_half (x : ℚ) : (rhe x : ℚ) ≤ x + 1/2 := by
  have hfl : (⌊x⌋ : ℚ) ≤ x := Int.floor_le x
  have hfr : x - ⌊x⌋ < 1 := by
    have := Int.lt_floor_add_one x
    linarith
  unfold rhe
  split
  · linarith
  · rename_i h1
    split
    · rename_i h2
      push_cast
      linarith [h2]
    · rename_i h2
      have heq : x - (⌊x⌋ : ℚ) = 1/2 := le_antisymm (not_lt.mp h2) (not_lt.mp h1)
      split
      · linarith
      · push_cast
        linarith [heq]

/-- Half-even rounding never crosses an integer bound from below. -/
theorem rhe_le_int {x : ℚ} {k : ℤ} (hk : x ≤ (k : ℚ)) : rhe x ≤ k := by
  have hfl : ⌊x⌋ ≤ k := by
    have := Int.floor_le_floor hk
    simpa using this
  have hfl' : (⌊x⌋ : ℚ) ≤ x := Int.floor_le x
  unfold rhe
  split
  · exact hfl
  · rename_i h1
    have hxf : (1 : ℚ)/2 ≤ x - ⌊x⌋ := not_lt.mp h1
    have hlt : ⌊x⌋ < k := by
      rcases lt_or_eq_of_le hfl with h | h
      · exact h
      · exfalso
        rw [h] at hxf
        have : (k : ℚ) + 1/2 ≤ x := by linarith
        linarith
    split
    · omega
    · split
      · exact hfl
      · omega

/-- `roundTo 2` of a nonnegative rational is nonnegative. -/
theorem roundTo2_nonneg {x : ℚ} (hx : 0 ≤ x) : 0 ≤ roundTo 2 x := by
  unfold roundTo
  have h : (0 : ℚ) ≤ (rhe (x * 10 ^ 2) : ℚ) := by
    exact_mod_cast rhe_nonneg (by positivity)
  positivity

/-- `roundTo 2` exceeds its argument by at most `1/200`. -/
theorem roundTo2_le_add (x : ℚ) : roundTo 2 x ≤ x + 1/200 := by
  unfold roundTo
  have h := rhe_le_add_half (x * 10 ^ 2)
  have h2 : ((rhe (x * 10 ^ 2) : ℚ)) / 10 ^ 2 ≤ (x * 10 ^ 2 + 1/2) / 10 ^ 2 := by
    apply div_le_div_of_nonneg_right h
    norm_num
  calc ((rhe (x * 10 ^ 2) : ℚ)) / 10 ^ 2 ≤ (x * 10 ^ 2 + 1/2) / 10 ^ 2 := h2
    _ = x + 1/200 := by ring

/-- `roundTo 2` respects an upper bound lying on the `0.01` grid. -/
theorem roundTo2_le_grid {x m : ℚ} (hx : x ≤ m) (hm : (m * 100).den = 1) :
    roundTo 2 x ≤ m := by
  have hk : ((m * 100).num : ℚ) = m * 100 := by
    have := (Rat.den_eq_one_iff (m * 100)).mp hm
    exact_mod_cast this
  have hb : x * 10 ^ 2 ≤ ((m * 100).num : ℚ) := by
    rw [hk]
    norm_num
    linarith
  have h := rhe_le_int hb
  unfold roundTo
  have h' : ((rhe (x * 10 ^ 2) : ℚ)) ≤ ((m * 100).num : ℚ) := by exact_mod_cast h
  rw [hk] at h'
  have : ((rhe (x * 10 ^ 2) : ℚ)) / 10 ^ 2 ≤ (m * 100) / 10 ^ 2 := by
    apply div_le_div_of_nonneg_right h'
    norm_num
  calc ((rhe (x * 10 ^ 2) : ℚ)) / 10 ^ 2 ≤ (m * 100) / 10 ^ 2 := this
    _ = m := by ring


/-- An in-bounds `getD` returns an element of the list. -/
theorem getD_mem_of_lt {α : Type} : ∀ (l : List α) (i : ℕ) (d : α), i < l.length → l.getD i d ∈ l := by
  intro l
  induction l with
  | nil => intro i d h; simp at h
  | cons x xs ih =>
    intro i d h
    cases i with
    | zero => simp
    | succ j =>
      have hj : j < xs.length := by simpa using h
      simpa using Or.inr (ih j d hj)

/-- `getD` with default `none` commutes with an option-valued `map`. -/
theorem getD_map_opt {α β : Type} (g : α → β) :
    ∀ (l : List (Option α)) (i : ℕ),
      (l.map (fun c => c.map g)).getD i none = (l.getD i none).map g := by
  intro l
  induction l with
  | nil => intro i; simp
  | cons x xs ih =>
    intro i
    cases i with
    | zero => simp
    | succ j => simpa using ih j

/-- `getD` over `(List.range n).map g` with default `none`. -/
theorem getD_range_map {β : Type} (g : ℕ → Option β) (n i : ℕ) :
    ((List.range n).map g).getD i none = if i < n then g i else none := by
  split
  · rename_i h
    rw [List.getD_eq_getElem?_getD, List.getElem?_map, List.getElem?_range h]
    rfl
  · rename_i h
    apply List.getD_eq_default
    simpa using not_lt.mp h

/-- The median of a list of nonnegative rationals, when defined, is
nonnegative. -/
theorem medianQ_nonneg {l : List ℚ} (hl : ∀ x ∈ l, 0 ≤ x) {m : ℚ}
    (hm : medianQ l = some m) : 0 ≤ m := by
  unfold medianQ at hm
  split at hm
  · simp at hm
  · rename_i hne
    have hmem : ∀ x ∈ List.insertionSort (· ≤ ·) l, 0 ≤ x := fun x hx =>
      hl x ((List.perm_insertionSort (· ≤ ·) l).mem_iff.mp hx)
    have hlen : (List.insertionSort (· ≤ ·) l).length = l.length :=
      (List.perm_insertionSort (· ≤ ·) l).length_eq
    have hpos : 0 < l.length := List.length_pos.mpr hne
    have h2 : l.length / 2 < (List.insertionSort (· ≤ ·) l).length := by
      rw [hlen]; omega
    have h1 : l.length / 2 - 1 < (List.insertionSort (· ≤ ·) l).length := by
      rw [hlen]; omega
    have e2 : 0 ≤ (List.insertionSort (· ≤ ·) l).getD (l.length / 2) 0 :=
      hmem _ (getD_mem_of_lt _ _ _ h2)
    have e1 : 0 ≤ (List.insertionSort (· ≤ ·) l).getD (l.length / 2 - 1) 0 :=
      hmem _ (getD_mem_of_lt _ _ _ h1)
    simp only [Option.some.injEq] at hm
    rw [← hm]
    split
    · exact e2
    · exact div_nonneg (by linarith) (by norm_num)

/-- `safeMedian` of a list of nonnegative rationals with a nonnegative
fallback is nonnegative. -/
theorem safeMedian_nonneg {l : List ℚ} (hl : ∀ x ∈ l, 0 ≤ x) {fb : ℚ}
    (hfb : 0 ≤ fb) : 0 ≤ safeMedian l fb := by
  unfold safeMedian
  cases hm : medianQ l with
  | none => simpa using hfb
  | some m => simpa using medianQ_nonneg hl hm

/-- Consecutive differences of a sorted list are nonnegative. -/
theorem pairDiffs_nonneg : ∀ {l : List ℚ}, l.Sorted (· ≤ ·) → ∀ x ∈ pairDiffs l, 0 ≤ x := by
  intro l
  induction l with
  | nil => intro _ x hx; simp [pairDiffs] at hx
  | cons a t ih =>
    intro hs x hx
    cases t with
    | nil => simp [pairDiffs] at hx
    | cons b t2 =>
      rw [pairDiffs] at hx
      rcases List.mem_cons.mp hx with h | h
      · have hab : a ≤ b := (List.sorted_cons.mp hs).1 b (by simp)
        rw [h]; linarith
      · exact ih (List.sorted_cons.mp hs).2 x h

/-- `getD` inside the range of a `replicate` returns the replicated
element. -/
theorem getD_replicate_of_lt {α : Type} (a d : α) :
    ∀ (n i : ℕ), i < n → (List.replicate n a).getD i d = a := by
  intro n
  induction n with
  | zero => intro i h; omega
  | succ m ih =>
    intro i h
    cases i with
    | zero => simp [List.replicate]
    | succ j =>
      have := ih j (by omega)
      simpa [List.replicate] using this

/-- The first true of a boolean list comes no later than any true
position. -/
theorem findIdx_le_of_get {l : List Bool} :
    ∀ {k : ℕ}, l.get? k = some true → l.findIdx id ≤ k := by
  induction l with
  | nil => intro k h; simp at h
  | cons b t ih =>
    intro k h
    cases k with
    | zero =>
      simp only [List.get?_cons_zero, Option.some.injEq] at h
      rw [h]
      simp [List.findIdx_cons]
    | succ j =>
      simp only [List.get?_cons_succ] at h
      rw [List.findIdx_cons]
      cases hb : b with
      | true => simp
      | false =>
        have := ih h
        simp only [id_eq, cond_false]
        omega

/-- Frozen series are constant from any true flag position on: helper
behind the freeze claims. -/
theorem freezeAfterFlag_const {s : List ℚ} {fz : List (Option Bool)} {k j : ℕ}
    (hlen : fz.length = s.length) (hk : fz.get? k = some (some true))
    (hkj : k ≤ j) (hj : j < s.length) :
    (DataPlay.freezeAfterFlag s fz).getD j 0 = (DataPlay.freezeAfterFlag s fz).getD k 0 := by
  have hfk : (fz.map (fun c => c.getD false)).get? k = some true := by
    rw [List.get?_map, hk]
    rfl
  have hany : (fz.map (fun c => c.getD false)).any id = true :=
    List.any_eq_true.mpr ⟨true, List.get?_mem hfk, rfl⟩
  have hp : (fz.map (fun c => c.getD false)).findIdx id ≤ k := findIdx_le_of_get hfk
  have hks : k < s.length := by
    have : k < fz.length := by
      have h' : fz[k]? = some (some true) := by rw [← List.get?_eq_getElem?]; exact hk
      obtain ⟨hlt, -⟩ := List.getElem?_eq_some.mp h'
      exact hlt
    omega
  simp only [DataPlay.freezeAfterFlag, hany, if_true]
  set p := (fz.map (fun c => c.getD false)).findIdx id with hpdef
  set v := if 0 < p then s.getD (p - 1) 0 else s.getD p 0 with hvdef
  have hlt : (s.take p).length = p := by
    rw [List.length_take]
    omega
  have hgj : (s.take p ++ List.replicate (s.length - p) v).getD j 0 = v := by
    rw [List.getD_append_right _ _ _ _ (by omega)]
    rw [hlt]
    exact getD_replicate_of_lt _ _ _ _ (by omega)
  have hgk : (s.take p ++ List.replicate (s.length - p) v).getD k 0 = v := by
    rw [List.getD_append_right _ _ _ _ (by omega)]
    rw [hlt]
    exact getD_replicate_of_lt _ _ _ _ (by omega)
  rw [hgj, hgk]

/-- Block ids are monotone along the row order. -/
theorem blockIdAt_mono (rs : List (Option Bool)) {j k : ℕ} (h : j ≤ k) :
    DataPlay.blockIdAt rs j ≤ DataPlay.blockIdAt rs k := by
  unfold DataPlay.blockIdAt
  have heq : rs.take (j + 1) = (rs.take (k + 1)).take (j + 1) := by
    rw [List.take_take]
    congr 1
    omega
  rw [heq]
  conv_rhs => rw [← List.take_append_drop (j + 1) (rs.take (k + 1))]
  rw [List.countP_append]
  omega

/-- A true reset at row `k` strictly bumps the block id above every
earlier row's. -/
theorem blockIdAt_lt {rs : List (Option Bool)} {j k : ℕ} (hjk : j < k)
    (hk : rs.get? k = some (some true)) :
    DataPlay.blockIdAt rs j < DataPlay.blockIdAt rs k := by
  have hk' : rs[k]? = some (some true) := by rw [← List.get?_eq_getElem?]; exact hk
  have hseg : ((rs.take (k + 1)).drop (j + 1))[k - (j + 1)]? = some (some true) := by
    rw [List.getElem?_drop]
    have harith : j + 1 + (k - (j + 1)) = k := by omega
    rw [harith, List.getElem?_take, if_pos (by omega), hk']
  have hmem : (some true : Option Bool) ∈ (rs.take (k + 1)).drop (j + 1) :=
    List.getElem?_mem hseg
  have hpos : 0 < ((rs.take (k + 1)).drop (j + 1)).countP (fun c => c = some true) :=
    List.countP_pos.mpr ⟨some true, hmem, by simp⟩
  unfold DataPlay.blockIdAt
  have heq : rs.take (j + 1) = (rs.take (k + 1)).take (j + 1) := by
    rw [List.take_take]
    congr 1
    omega
  conv_rhs => rw [← List.take_append_drop (j + 1) (rs.take (k + 1))]
  rw [List.countP_append, heq]
  omega

/-- At a true reset row, the block-scoped cumulative sum collapses to the
row's own step value. -/
theorem blockCumsum_reset {rs : List (Option Bool)} {vs : List ℚ} {k : ℕ}
    (hk : rs.get? k = some (some true)) :
    DataPlay.blockCumsumAt rs vs k = vs.getD k 0 := by
  unfold DataPlay.blockCumsumAt
  rw [Finset.sum_range_succ]
  have h0 : ∑ j ∈ Finset.range k,
      (if DataPlay.blockIdAt rs j = DataPlay.blockIdAt rs k then vs.getD j 0 else 0) = 0 := by
    apply Finset.sum_eq_zero
    intro j hj
    exact if_neg (Nat.ne_of_lt (blockIdAt_lt (Finset.mem_range.mp hj) hk))
  rw [h0, if_pos rfl, zero_add]

/-- A drop in the balance reading leaves the running total unchanged:
helper behind the reset claims. -/
theorem wpGo_drop : ∀ (ws : List Cell) (total : ℚ) (prev : Option ℚ) (i : ℕ) (a b : ℚ),
    ws.get? i = some (some a) → ws.get? (i + 1) = some (some b) → b < a →
    (wpGo total prev ws).get? (i + 1) = (wpGo total prev ws).get? i := by
  intro ws
  induction ws with
  | nil => intro total prev i a b h1 _ _; simp at h1
  | cons w t ih =>
    intro total prev i a b h1 h2 hb
    cases i with
    | zero =>
      simp only [List.get?_cons_zero, Option.some.injEq] at h1
      subst h1
      simp only [List.get?_cons_succ] at h2
      cases t with
      | nil => simp at h2
      | cons w2 t2 =>
        simp only [List.get?_cons_zero, Option.some.injEq] at h2
        subst h2
        simp only [wpGo, List.get?_cons_succ, List.get?_cons_zero, Option.some.injEq]
        rw [if_neg (not_le.mpr hb)]
    | succ n =>
      simp only [List.get?_cons_succ] at h1 h2
      cases w with
      | none =>
        simp only [wpGo, List.get?_cons_succ]
        exact ih total prev n a b h1 h2 hb
      | some w0 =>
        simp only [wpGo, List.get?_cons_succ]
        exact ih _ (some w0) n a b h1 h2 hb

/-- C3: at any row where the raw balance reading drops below its
predecessor, `calculate_water_production` leaves the cumulative output
unchanged (the drop contributes zero, not a negative delta); and the
gram series `[100, 150, 40, 90]` yields the cumulative liter series
`[0.1, 0.15, 0.15, 0.20]`. -/
theorem claim_C3_reset_nonneg :
    (∀ (ws : List Cell) (i : ℕ) (a b : ℚ),
        ws.get? i = some (some a) → ws.get? (i + 1) = some (some b) → b < a →
        (calculate_water_production ws).get? (i + 1) = (calculate_water_production ws).get? i)
    ∧ calculate_water_production [some 100, some 150, some 40, some 90]
        = [some (1/10), some (3/20), some (3/20), some (1/5)] := by
  constructor
  · intro ws i a b h1 h2 hb
    exact wpGo_drop ws 0 none i a b h1 h2 hb
  · norm_num [calculate_water_production, wpGo]

/-- C3 witness: the drop from 150 g to 40 g leaves the cumulative output
at rows 1 and 2 equal. -/
theorem claim_C3_witness :
    (calculate_water_production [some 100, some 150, some 40, some 90]).get? 2
      = (calculate_water_production [some 100, some 150, some 40, some 90]).get? 1 :=
  claim_C3_reset_nonneg.1 [some 100, some 150, some 40, some 90] 1 150 40 (by decide) (by decide) (by norm_num)

/-- C5: once the freeze flag is true at row `k`, the frozen cumulative
series is constant for all rows from `k` on and equal to its value at
row `k`. -/
theorem claim_C5_freeze_invariance : ∀ (s : List ℚ) (fz : List (Option Bool)) (k j : ℕ),
    fz.length = s.length → fz.get? k = some (some true) → k ≤ j → j < s.length →
    (DataPlay.freezeAfterFlag s fz).getD j 0 = (DataPlay.freezeAfterFlag s fz).getD k 0 :=
  fun _ _ _ _ h1 h2 h3 h4 => freezeAfterFlag_const h1 h2 h3 h4

/-- C5 witness: with the freeze flag raised at row 1, rows 3 and 1 of the
frozen series coincide. -/
theorem claim_C5_witness :
    (DataPlay.freezeAfterFlag [1, 2, 3, 4] [some false, some true, none, some false]).getD 3 0
      = (DataPlay.freezeAfterFlag [1, 2, 3, 4] [some false, some true, none, some false]).getD 1 0 :=
  claim_C5_freeze_invariance [1, 2, 3, 4] [some false, some true, none, some false] 1 3
    (by decide) (by decide) (by decide) (by decide)

/-- C7: at a row whose reset flag is true, the block-scoped cumulative
sum of the pause-masked step series equals that row's own masked step
value, not the prior block's total plus the step. -/
theorem claim_C7_block_restart : ∀ (resets : List (Option Bool)) (steps : List ℚ)
    (counting : Option (List (Option Bool))) (k : ℕ),
    resets.get? k = some (some true) →
    DataPlay.blockCumsumAt resets (DataPlay.applyPauseMask steps counting) k
      = (DataPlay.applyPauseMask steps counting).getD k 0 :=
  fun _ _ _ _ hk => blockCumsum_reset hk

/-- C7 witness: a reset at row 2 restarts the accumulation at that row's
own step value 3. -/
theorem claim_C7_witness :
    DataPlay.blockCumsumAt [some false, some false, some true, some false]
        (DataPlay.applyPauseMask [1, 2, 3, 4] (some [some true, some true, some true, some false])) 2
      = (DataPlay.applyPauseMask [1, 2, 3, 4] (some [some true, some true, some true, some false])).getD 2 0 :=
  claim_C7_block_restart [some false, some false, some true, some false] [1, 2, 3, 4]
    (some [some true, some true, some true, some false]) 2 (by decide)

/-- C4 counterexample: two rows with identical parseable timestamps give
the second row a sample interval of exactly 0, which is kept rather than
replaced, so the produced intervals are not all positive. -/
theorem claim_C4_counterexample :
    DataPlay.sampleIntervals [some 5, some 5] = [0, 0] ∧ ¬ (0 < (0 : ℚ)) := by
  constructor
  · norm_num [DataPlay.sampleIntervals, medianQ, safeMedian, pairDiffs,
      List.insertionSort, List.orderedInsert, List.filterMap_cons, List.filterMap_nil,
      List.cons_ne_nil]
  · norm_num

/-- C4 (amended): every sample interval produced by the timestamp stage
is nonnegative (not necessarily positive: duplicate timestamps yield a
zero interval that is kept); the first row's undefined interval is
replaced by the median of the other intervals, with the fixed 30-second
fallback when no median is computable, and only negative intervals are
replaced by that median. -/
theorem claim_C4_amended : ∀ ts : List Cell,
    (∀ x ∈ DataPlay.sampleIntervals ts, 0 ≤ x)
    ∧ (ts.filterMap id ≠ [] →
        (DataPlay.sampleIntervals ts).head?
          = some (safeMedian (pairDiffs (List.insertionSort (· ≤ ·) (ts.filterMap id))) 30)) := by
  intro ts
  constructor
  · intro x hx
    unfold DataPlay.sampleIntervals at hx
    rcases hE : List.insertionSort (· ≤ ·) (ts.filterMap id) with _ | ⟨h0, tl⟩
    · rw [hE] at hx
      simp at hx
    · rw [hE] at hx
      have hsorted : (h0 :: tl).Sorted (· ≤ ·) := by
        rw [← hE]
        exact List.sorted_insertionSort _ _
      have hds : ∀ y ∈ pairDiffs (h0 :: tl), 0 ≤ y := pairDiffs_nonneg hsorted
      have hmed : 0 ≤ safeMedian (pairDiffs (h0 :: tl)) 30 := safeMedian_nonneg hds (by norm_num)
      rcases List.mem_cons.mp hx with h | h
    
    
      · rw [h]
        exact hmed
      · obtain ⟨d, hd, hxd⟩ := List.mem_map.mp h
        rw [← hxd]
        split
        · exact hmed
        · exact hds d hd
  · intro hne
    unfold DataPlay.sampleIntervals
    rcases hE : List.insertionSort (· ≤ ·) (ts.filterMap id) with _ | ⟨h0, tl⟩
    · exfalso
      have hlen : (List.insertionSort (· ≤ ·) (ts.filterMap id)).length = (ts.filterMap id).length :=
        (List.perm_insertionSort (· ≤ ·) (ts.filterMap id)).length_eq
      rw [hE] at hlen
      exact hne (List.length_eq_zero.mp hlen.symm)
    · rfl

/-- C4 witness: timestamps 10 s apart yield the interval list `[10, 10]`,
whose member 10 the amended theorem certifies nonnegative, and whose
first entry is the median fallback value. -/
theorem claim_C4_witness :
    (0 ≤ (10 : ℚ))
    ∧ ((DataPlay.sampleIntervals [some 10, some 0]).head?
        = some (safeMedian (pairDiffs (List.insertionSort (· ≤ ·)
            (([some 10, some 0] : List Cell).filterMap id))) 30)) := by
  constructor
  · apply (claim_C4_amended [some 10, some 0]).1 10
    norm_num [DataPlay.sampleIntervals, medianQ, safeMedian, pairDiffs,
      List.insertionSort, List.orderedInsert, List.filterMap_cons, List.filterMap_nil,
      List.cons_ne_nil]
  · apply (claim_C4_amended [some 10, some 0]).2
    simp

/-- C6 counterexample: with timestamps `[0, 10, 40]` the third row's own
sample interval is 30 s, so the claimed formula gives 30 kWh for a
3 600 000 W row, but `data_play.py` multiplies every row by the median
gap (20 s) and reports 20 kWh; and a missing power cell yields a missing
energy step, not 0. -/
theorem claim_C6_counterexample :
    (DataPlay.energyStepFromPower [0, 10, 40] [some 3600000, some 3600000, some 3600000]).getD 2 none
      = some 20
    ∧ (DataPlay.sampleIntervals [some 0, some 10, some 40]).getD 2 0 = 30
    ∧ (3600000 : ℚ) * (30 / 3600) / 1000 = 30
    ∧ ¬ ((20 : ℚ) = 30)
    ∧ (DataPlay.energyStepFromPower [0, 10] [none, some 1000]).getD 0 none ≠ some 0 := by
  refine ⟨?_, ?_, by norm_num, by norm_num, ?_⟩
  · norm_num [DataPlay.energyStepFromPower, medianQ, safeMedian, pairDiffs,
      List.insertionSort, List.orderedInsert, List.cons_ne_nil]
  · norm_num [DataPlay.sampleIntervals, medianQ, safeMedian, pairDiffs,
      List.insertionSort, List.orderedInsert, List.filterMap_cons, List.filterMap_nil,
      List.cons_ne_nil]
  · have h0 : (DataPlay.energyStepFromPower [0, 10] [none, some 1000]).getD 0 none = none := by
      norm_num [DataPlay.energyStepFromPower, medianQ, safeMedian, pairDiffs,
        List.insertionSort, List.orderedInsert, List.cons_ne_nil]
    rw [h0]
    intro h
    exact Option.noConfusion h

/-- C6 (amended): in `data_play.py` the energy step of every row equals
`power * (median_gap/3600) / 1000`, where `median_gap` is the one median
timestamp gap (0 when there are fewer than two rows), and a missing
power cell yields a missing energy step; in `data_play-01.py` the energy
step equals `power * (interval_seconds/3600) / 1000` with the row's own
sample interval and a missing power treated as 0, as the claim states. -/
theorem claim_C6_amended :
    (∀ (ts : List ℚ) (power : List Cell) (i : ℕ),
        (DataPlay.energyStepFromPower ts power).getD i none
          = (power.getD i none).map (fun p => p * (safeMedian (pairDiffs ts) 0 / 3600) / 1000))
    ∧ (∀ (cfg : DataPlay01.Cfg) (f : DataPlay01.Frame) (i : ℕ),
        f.hasPower = true → f.hasTimestamp = true →
        (DataPlay01.process_data cfg f).energyStep i
          = ((DataPlay01.rowAt f i).power.getD 0)
              * ((DataPlay01.process_data cfg f).interval i / 3600) / 1000) := by
  constructor
  · intro ts power i
    unfold DataPlay.energyStepFromPower
    exact getD_map_opt _ power i
  · intro cfg f i hp ht
    show DataPlay01.energyStepAt f i = _
    unfold DataPlay01.energyStepAt
    rw [hp, ht]
    rfl

/-- C6 witness: the amended theorem evaluated on a concrete two-row
table, on a present and on a missing power cell. -/
theorem claim_C6_witness :
    ((DataPlay.energyStepFromPower [0, 10] [some 1000, none]).getD 0 none
       = (([some 1000, none] : List Cell).getD 0 none).map
           (fun p => p * (safeMedian (pairDiffs [0, 10]) 0 / 3600) / 1000))
    ∧ ((DataPlay.energyStepFromPower [0, 10] [some 1000, none]).getD 1 none
       = (([some 1000, none] : List Cell).getD 1 none).map
           (fun p => p * (safeMedian (pairDiffs [0, 10]) 0 / 3600) / 1000))
    ∧ ((DataPlay01.process_data cfgPower framePower).energyStep 0
       = ((DataPlay01.rowAt framePower 0).power.getD 0)
           * ((DataPlay01.process_data cfgPower framePower).interval 0 / 3600) / 1000) :=
  ⟨claim_C6_amended.1 [0, 10] [some 1000, none] 0,
   claim_C6_amended.1 [0, 10] [some 1000, none] 1,
   claim_C6_amended.2 cfgPower framePower 0 rfl rfl⟩

/-- C8: `calculate_absolute_humidity` is a total function of its model
(it never lets an exception escape: every error is caught and mapped to
None, modelled as `rnone`, and NaN propagates as `rnan`), and it returns
an invalid no-value result, never a number, whenever the temperature is
None, NaN, non-numeric, exactly -273.15 (zero denominator), -243.5 (zero
denominator inside the exponent), or makes the exponent argument exceed
the overflow bound of `math.exp`. -/
theorem claim_C8_humidity_invalid : ∀ (mexp : ℚ → ℚ) (ovf : ℚ) (rel : PyVal),
    (calculate_absolute_humidity mexp ovf PyVal.pnone rel).isInvalid = true
    ∧ (calculate_absolute_humidity mexp ovf PyVal.nan rel).isInvalid = true
    ∧ (calculate_absolute_humidity mexp ovf PyVal.pstr rel).isInvalid = true
    ∧ (calculate_absolute_humidity mexp ovf (PyVal.num (-273.15)) rel).isInvalid = true
    ∧ (∀ t : ℚ, t + 243.5 = 0 →
        (calculate_absolute_humidity mexp ovf (PyVal.num t) rel).isInvalid = true)
    ∧ (∀ t : ℚ, ovf < 17.67 * t / (t + 243.5) →
        (calculate_absolute_humidity mexp ovf (PyVal.num t) rel).isInvalid = true) := by
  intro mexp ovf rel
  refine ⟨rfl, ?_, rfl, ?_, ?_, ?_⟩
  · cases rel <;> rfl
  · show (calculate_absolute_humidity mexp ovf (PyVal.num (-273.15)) rel).isInvalid = true
    simp only [calculate_absolute_humidity]
    rw [if_neg (by norm_num : ¬((-273.15 : ℚ) + 243.5 = 0))]
    split
    · rfl
    · cases rel <;> norm_num [PyRes.isInvalid]
  · intro t ht
    simp only [calculate_absolute_humidity]
    rw [if_pos ht]
    rfl
  · intro t hovf
    simp only [calculate_absolute_humidity]
    by_cases hz : t + 243.5 = 0
    · rw [if_pos hz]
      rfl
    · rw [if_neg hz, if_pos hovf]
      rfl

/-- C8 witness: a None temperature and an overflowing temperature
(-243.6, whose exponent argument is 43044.12) both produce an invalid
result. -/
theorem claim_C8_witness :
    ((calculate_absolute_humidity (fun q => q) 710 PyVal.pnone (PyVal.num 50)).isInvalid = true)
    ∧ ((calculate_absolute_humidity (fun q => q) 710 (PyVal.num (-1218/5)) (PyVal.num 50)).isInvalid = true) :=
  ⟨(claim_C8_humidity_invalid (fun q => q) 710 (PyVal.num 50)).1,
   (claim_C8_humidity_invalid (fun q => q) 710 (PyVal.num 50)).2.2.2.2.2 (-1218/5) (by norm_num)⟩

/-- C1: whenever a row fails the efficiency validity gate of
`data_play-01.py` — rolling intake below `min_intake_L`, rolling
production not at least `min_prod_L` (or missing), raw efficiency not a
value inside `[0, eff_max]`, or the pump not mostly on over the window —
`process_data` reports `harvesting_efficiency` for that row as the
missing-value marker, never 0 and never a clamped number. -/
theorem claim_C1_gate_invalid : ∀ (cfg : DataPlay01.Cfg) (f : DataPlay01.Frame) (i : ℕ),
    (DataPlay01.intakeRollAt cfg f i < cfg.minIntake
      ∨ (¬ ∃ p, DataPlay01.prodRollAt cfg f i = some p ∧ cfg.minProd ≤ p)
      ∨ (¬ ∃ e, DataPlay01.effRawAt cfg f i = some e ∧ 0 ≤ e ∧ e ≤ cfg.effMax)
      ∨ DataPlay01.pumpOnAt cfg f i = false) →
    (DataPlay01.process_data cfg f).harvestingEfficiency i = none := by
  intro cfg f i h
  show DataPlay01.effAt cfg f i = none
  have hkeep : DataPlay01.keepAt cfg f i = false := by
    unfold DataPlay01.keepAt
    rcases h with h | h | h | h
    · have hd : DataPlay01.goodDenAt cfg f i = false := by
        unfold DataPlay01.goodDenAt
        exact decide_eq_false (not_le.mpr h)
      simp [hd]
    · have hn : DataPlay01.goodNumAt cfg f i = false := by
        unfold DataPlay01.goodNumAt
        cases hpr : DataPlay01.prodRollAt cfg f i with
        | none => rfl
        | some p =>
          simp only [decide_eq_false_iff_not]
          intro hle
          exact h ⟨p, hpr, hle⟩
      simp [hn]
    · have hr : DataPlay01.inRangeAt cfg f i = false := by
        unfold DataPlay01.inRangeAt
        cases heff : DataPlay01.effRawAt cfg f i with
        | none => rfl
        | some e =>
          simp only [Bool.and_eq_false_iff, decide_eq_false_iff_not]
          by_cases h0 : 0 ≤ e
          · right
            intro h1
            exact h ⟨e, heff, h0, h1⟩
          · left
            exact h0
      simp [hr]
    · simp [h]
  unfold DataPlay01.effAt
  rw [hkeep]
  rfl

/-- C1 witness: a one-row table without a weight column has a missing
rolling production, fails the gate, and reports a missing efficiency. -/
theorem claim_C1_witness :
    (¬ ∃ p, DataPlay01.prodRollAt cfgGateFail frameGateFail 0 = some p ∧ cfgGateFail.minProd ≤ p)
    ∧ (DataPlay01.process_data cfgGateFail frameGateFail).harvestingEfficiency 0 = none := by
  have hnone : DataPlay01.prodRollAt cfgGateFail frameGateFail 0 = none := by
    norm_num [DataPlay01.prodRollAt, DataPlay01.prodStepAt, DataPlay01.windowIdx,
      DataPlay01.winOf, DataPlay01.waterAt, DataPlay01.waterCol, DataPlay01.nOf,
      DataPlay01.rowsOf, DataPlay01.key, cfgGateFail, frameGateFail,
      List.insertionSort, List.orderedInsert, List.range, List.range.loop,
      List.filterMap_cons, List.filterMap_nil]
  have hnp : ¬ ∃ p, DataPlay01.prodRollAt cfgGateFail frameGateFail 0 = some p
      ∧ cfgGateFail.minProd ≤ p := by
    rintro ⟨p, hp, -⟩
    rw [hnone] at hp
    exact Option.noConfusion hp
  exact ⟨hnp, claim_C1_gate_invalid cfgGateFail frameGateFail 0 (Or.inr (Or.inl hnp))⟩

/-- C2 counterexample: with the configurable ceiling `eff_max = 0.008`
(not a multiple of the 0.01 reporting grid), the second row of
`frameEdge` passes the whole gate with raw efficiency exactly 0.008, yet
the reported (2-decimal rounded) value 0.01 lies outside `[0, eff_max]`,
refuting the claim that every reported value lies in that range. -/
theorem claim_C2_counterexample :
    (DataPlay01.process_data cfgEdge frameEdge).keep 1 = true
    ∧ (DataPlay01.process_data cfgEdge frameEdge).harvestingEfficiency 1 = some (1/100)
    ∧ cfgEdge.effMax = 1/125
    ∧ ¬ ((1/100 : ℚ) ≤ 1/125) := by
  refine ⟨?_, ?_, rfl, by norm_num⟩
  · norm_num [DataPlay01.process_data, DataPlay01.effAt, DataPlay01.keepAt, DataPlay01.inRangeAt,
      DataPlay01.goodNumAt, DataPlay01.goodDenAt, DataPlay01.effRawAt, DataPlay01.pumpOnAt,
      DataPlay01.prodGtAt, DataPlay01.powerGtAt, DataPlay01.pumpBoolAt, DataPlay01.intakeRollAt,
      DataPlay01.prodRollAt, DataPlay01.prodStepAt, DataPlay01.windowIdx, DataPlay01.winOf,
      DataPlay01.waterAt, DataPlay01.waterCol, DataPlay01.intakeStepAt, DataPlay01.absInAt,
      DataPlay01.hasIntakeAH, DataPlay01.cellAH, DataPlay01.toPyVal, DataPlay01.intervalAt,
      DataPlay01.medOf, DataPlay01.dtAt, DataPlay01.tsAt, DataPlay01.rowAt, DataPlay01.nOf,
      DataPlay01.rowsOf, DataPlay01.key, cfgEdge, frameEdge,
      calculate_water_production, wpGo, medianQ, safeMedian, pairDiffs, roundTo, rhe,
      List.insertionSort, List.orderedInsert, List.range, List.range.loop,
      List.filterMap_cons, List.filterMap_nil, List.sum_cons, List.sum_nil,
      Int.fract, Int.floor_eq_iff]
  · norm_num [DataPlay01.process_data, DataPlay01.effAt, DataPlay01.keepAt, DataPlay01.inRangeAt,
      DataPlay01.goodNumAt, DataPlay01.goodDenAt, DataPlay01.effRawAt, DataPlay01.pumpOnAt,
      DataPlay01.prodGtAt, DataPlay01.powerGtAt, DataPlay01.pumpBoolAt, DataPlay01.intakeRollAt,
      DataPlay01.prodRollAt, DataPlay01.prodStepAt, DataPlay01.windowIdx, DataPlay01.winOf,
      DataPlay01.waterAt, DataPlay01.waterCol, DataPlay01.intakeStepAt, DataPlay01.absInAt,
      DataPlay01.hasIntakeAH, DataPlay01.cellAH, DataPlay01.toPyVal, DataPlay01.intervalAt,
      DataPlay01.medOf, DataPlay01.dtAt, DataPlay01.tsAt, DataPlay01.rowAt, DataPlay01.nOf,
      DataPlay01.rowsOf, DataPlay01.key, cfgEdge, frameEdge,
      calculate_water_production, wpGo, medianQ, safeMedian, pairDiffs, roundTo, rhe,
      List.insertionSort, List.orderedInsert, List.range, List.range.loop,
      List.filterMap_cons, List.filterMap_nil, List.sum_cons, List.sum_nil,
      Int.fract, Int.floor_eq_iff]

/-- C2 (amended): every reported (non-missing) `harvesting_efficiency`
value is the 2-decimal rounding of a raw efficiency that the gate checked
against `[0, eff_max]` before rounding; hence every reported value lies
in `[0, eff_max + 0.005]`, and in `[0, eff_max]` itself whenever
`100 * eff_max` is an integer — as with the default ceiling 120 — but not
for an arbitrary configured ceiling. -/
theorem claim_C2_amended : ∀ (cfg : DataPlay01.Cfg) (f : DataPlay01.Frame) (i : ℕ) (v : ℚ),
    (DataPlay01.process_data cfg f).harvestingEfficiency i = some v →
    0 ≤ v ∧ v ≤ cfg.effMax + 1/200 ∧ ((cfg.effMax * 100).den = 1 → v ≤ cfg.effMax) := by
  intro cfg f i v hv
  have hv' : DataPlay01.effAt cfg f i = some v := hv
  unfold DataPlay01.effAt at hv'
  by_cases hk : DataPlay01.keepAt cfg f i = true
  · rw [if_pos hk] at hv'
    obtain ⟨e, he, hev⟩ := Option.map_eq_some'.mp hv'
    have hrng : DataPlay01.inRangeAt cfg f i = true := by
      unfold DataPlay01.keepAt at hk
      rw [Bool.and_eq_true] at hk
      exact hk.2
    have hbounds : 0 ≤ e ∧ e ≤ cfg.effMax := by
      unfold DataPlay01.inRangeAt at hrng
      rw [he] at hrng
      rw [Bool.and_eq_true] at hrng
      exact ⟨of_decide_eq_true hrng.1, of_decide_eq_true hrng.2⟩
    obtain ⟨h0, h1⟩ := hbounds
    rw [← hev]
    refine ⟨roundTo2_nonneg h0, ?_, ?_⟩
    · calc roundTo 2 e ≤ e + 1/200 := roundTo2_le_add e
        _ ≤ cfg.effMax + 1/200 := by linarith
    · intro hden
      exact roundTo2_le_grid h1 hden
  · rw [if_neg hk] at hv'
    exact Option.noConfusion hv'

/-- C2 witness: the amended bounds evaluated on the reported value 0.01
of `frameEdge` under the ceiling 0.008. -/
theorem claim_C2_witness :
    0 ≤ (1/100 : ℚ) ∧ (1/100 : ℚ) ≤ cfgEdge.effMax + 1/200
      ∧ ((cfgEdge.effMax * 100).den = 1 → (1/100 : ℚ) ≤ cfgEdge.effMax) :=
  claim_C2_amended cfgEdge frameEdge 1 (1/100) (by
    norm_num [DataPlay01.process_data, DataPlay01.effAt, DataPlay01.keepAt, DataPlay01.inRangeAt,
      DataPlay01.goodNumAt, DataPlay01.goodDenAt, DataPlay01.effRawAt, DataPlay01.pumpOnAt,
      DataPlay01.prodGtAt, DataPlay01.powerGtAt, DataPlay01.pumpBoolAt, DataPlay01.intakeRollAt,
      DataPlay01.prodRollAt, DataPlay01.prodStepAt, DataPlay01.windowIdx, DataPlay01.winOf,
      DataPlay01.waterAt, DataPlay01.waterCol, DataPlay01.intakeStepAt, DataPlay01.absInAt,
      DataPlay01.hasIntakeAH, DataPlay01.cellAH, DataPlay01.toPyVal, DataPlay01.intervalAt,
      DataPlay01.medOf, DataPlay01.dtAt, DataPlay01.tsAt, DataPlay01.rowAt, DataPlay01.nOf,
      DataPlay01.rowsOf, DataPlay01.key, cfgEdge, frameEdge,
      calculate_water_production, wpGo, medianQ, safeMedian, pairDiffs, roundTo, rhe,
      List.insertionSort, List.orderedInsert, List.range, List.range.loop,
      List.filterMap_cons, List.filterMap_nil, List.sum_cons, List.sum_nil,
      Int.fract, Int.floor_eq_iff])

/-- C10: when both absolute-humidity columns are present, the emitted
`calibrated_outtake_air_humidity` cell of every in-range row is the
outtake absolute humidity plus one constant offset; that offset is the
scalar 0 when no row satisfies the calibration condition (positional
index below 10, or current below 2, every row qualifying when the
current column is absent), and otherwise it is the mean of the defined
intake-minus-outtake differences over the calibration rows. -/
theorem claim_C10_calibration : ∀ (n : ℕ) (absIn absOut : List Cell)
    (current : Option (List Cell)) (i : ℕ),
    ((DataPlay.calibratedOuttake n absIn absOut current).getD i none
       = if i < n then DataPlay.cellAdd (absOut.getD i none)
            (DataPlay.calibOffset n absIn absOut current) else none)
    ∧ (DataPlay.calibRows n current = [] →
        DataPlay.calibOffset n absIn absOut current = some 0)
    ∧ (DataPlay.calibDiffs absIn absOut (DataPlay.calibRows n current) ≠ [] →
        DataPlay.calibOffset n absIn absOut current
          = some ((DataPlay.calibDiffs absIn absOut (DataPlay.calibRows n current)).sum
                   / ((DataPlay.calibDiffs absIn absOut (DataPlay.calibRows n current)).length : ℚ))) := by
  intro n absIn absOut current i
  refine ⟨?_, ?_, ?_⟩
  · unfold DataPlay.calibratedOuttake
    exact getD_range_map _ n i
  · intro h
    unfold DataPlay.calibOffset
    rw [if_pos h]
  · intro h
    have hrows : DataPlay.calibRows n current ≠ [] := by
      intro hr
      rw [hr] at h
      exact h rfl
    unfold DataPlay.calibOffset
    rw [if_neg hrows, if_neg h]

/-- C10 witness: the calibration equations evaluated on a two-row table
with no current column, where the offset is the mean `3/2` of the two
differences. -/
theorem claim_C10_witness :
    (((DataPlay.calibratedOuttake 2 [some 10, some 8] [some 9, some 6] none).getD 0 none
       = if 0 < 2 then DataPlay.cellAdd ((([some 9, some 6] : List Cell)).getD 0 none)
            (DataPlay.calibOffset 2 [some 10, some 8] [some 9, some 6] none) else none))
    ∧ (DataPlay.calibOffset 2 [some 10, some 8] [some 9, some 6] none
        = some ((DataPlay.calibDiffs [some 10, some 8] [some 9, some 6]
                  (DataPlay.calibRows 2 none)).sum
                 / ((DataPlay.calibDiffs [some 10, some 8] [some 9, some 6]
                  (DataPlay.calibRows 2 none)).length : ℚ))) :=
  ⟨(claim_C10_calibration 2 [some 10, some 8] [some 9, some 6] none 0).1,
   (claim_C10_calibration 2 [some 10, some 8] [some 9, some 6] none 0).2.2 (by
     have hd : DataPlay.calibDiffs [some 10, some 8] [some 9, some 6]
         (DataPlay.calibRows 2 none) = [1, 2] := by
       norm_num [DataPlay.calibDiffs, DataPlay.calibRows, DataPlay.calibCond,
         List.range, List.range.loop, List.filterMap_cons, List.filterMap_nil]
     rw [hd]
     simp)⟩
